import Mathlib

/-!
Verification of the Address Variant Resolution & Deduplication Engine
(`ukam_os_builder/data_sources/abp/to_flatfile.py` and
`ukam_os_builder/data_sources/abp/transform/`).

The SQL transformation pipeline is shallowly embedded:
* SQL `VARCHAR` values are `String` (nullable columns are `Option String`),
  `BIGINT`/`INTEGER` are `Int`, `DATE`s are `Int`s in `yyyymmdd` encoding
  (so the usual order on dates is the order on the encoding; the sentinel
  `DATE '0001-01-01'` is `10101`);
* relations are `List`s of structure values, one structure per table schema;
* `ROW_NUMBER() OVER (PARTITION BY k ORDER BY o) ... WHERE rn = 1` is
  "for every key `k`, the first row of the group under the order `o`",
  embedded by `pickFold` below (ties are broken by scan order);
* SQL three-valued logic on nullable comparisons is made explicit at each
  use site (a NULL comparand makes the comparison not-TRUE).
-/

/-! ## SQL string primitives -/

/-- The apostrophe character, `CHR(39)` in the source SQL. -/
def aposChar : Char := Char.ofNat 39

/-- Characters matched by the regex class `\s` (ASCII whitespace, as used by
DuckDB's RE2 engine on these patterns). -/
def isWsChar (c : Char) : Bool :=
  c == ' ' || c == '\t' || c == '\n' || c == Char.ofNat 13 ||
  c == Char.ofNat 11 || c == Char.ofNat 12

/-- SQL `TRIM` on a character list: remove leading and trailing space
characters (SQL `TRIM` strips the space character only). -/
def trimList (l : List Char) : List Char :=
  ((l.dropWhile (· == ' ')).reverse.dropWhile (· == ' ')).reverse

/-- SQL `TRIM(s)`: strip leading and trailing spaces. -/
def sqlTrim (s : String) : String :=
  String.mk (trimList s.data)

/-- SQL `NULLIF(s, '')`: turn the empty string into NULL (and keep NULL). -/
def nullifEmpty (s : Option String) : Option String :=
  match s with
  | none => none
  | some t => if t = "" then none else some t

/-- SQL `concat_ws(sep, e1, ..., en)`: join the non-NULL arguments with the
separator (empty strings are kept, NULLs are skipped). -/
def concatWs (sep : String) (parts : List (Option String)) : String :=
  String.intercalate sep (parts.filterMap id)

/-- SQL `COALESCE(s, '')` for a nullable string. -/
def coalesceStr (s : Option String) : String := s.getD ""

/-- One step of `REGEXP_REPLACE(s, '\s+', ' ')` without the `g` option:
replace only the first (leftmost, maximal) whitespace run by one space. -/
def replaceFirstWsRun : List Char → List Char
  | [] => []
  | c :: cs =>
    if isWsChar c then ' ' :: cs.dropWhile isWsChar
    else c :: replaceFirstWsRun cs

/-- The Combiner's address normalization
(`REGEXP_REPLACE(REPLACE(raw_address, CHR(39), ''), '\s+', ' ')`):
remove every apostrophe, then replace the first whitespace run by a single
space (DuckDB `REGEXP_REPLACE` without the `g` option replaces only the
first occurrence of the pattern). -/
def normalizeAddress (s : String) : String :=
  String.mk (replaceFirstWsRun (s.data.filter (fun c => c != aposChar)))

/-- Helper for `specNormalizeAddress`: collapse every whitespace run to a
single space. The flag records whether the current position is inside an
already-collapsed run. -/
def collapseWsGo : Bool → List Char → List Char
  | _, [] => []
  | skipping, c :: cs =>
    if isWsChar c then
      if skipping then collapseWsGo true cs
      else ' ' :: collapseWsGo true cs
    else c :: collapseWsGo false cs

/-- Modelled from the spec's words, for comparison with `normalizeAddress`
(the definition taken from the code): "Normalize each rendered address:
strip apostrophes, collapse any run of whitespace to a single space" —
i.e. EVERY whitespace run is collapsed, not only the first one. -/
def specNormalizeAddress (s : String) : String :=
  String.mk (collapseWsGo false (s.data.filter (fun c => c != aposChar)))

/-! ## Generic "first row under an ORDER BY" -/

/-- Fold that keeps the least element seen so far under the strict
comparison `lt`; on ties (or incomparabilities) the earlier element wins,
which is the scan-order tie-break of a `ROW_NUMBER`/`LIMIT 1` pick. -/
def pickFold (lt : α → α → Bool) (x : α) : List α → α
  | [] => x
  | y :: ys => pickFold lt (if lt y x then y else x) ys

/-- The first row of a relation under `ORDER BY` (`LIMIT 1`, or
`ROW_NUMBER() = 1`): `none` on the empty relation. -/
def pickBest (lt : α → α → Bool) : List α → Option α
  | [] => none
  | x :: xs => some (pickFold lt x xs)

theorem pickFold_mem (lt : α → α → Bool) (x : α) (xs : List α) :
    pickFold lt x xs = x ∨ pickFold lt x xs ∈ xs := by
  induction xs generalizing x with
  | nil => exact Or.inl rfl
  | cons y ys ih =>
    simp only [pickFold]
    cases hc : lt y x with
    | true =>
      rw [if_pos rfl]
      rcases ih y with h | h
      · right; rw [h]; exact List.mem_cons_self y ys
      · right; exact List.mem_cons_of_mem _ h
    | false =>
      rw [if_neg Bool.false_ne_true]
      rcases ih x with h | h
      · left; exact h
      · right; exact List.mem_cons_of_mem _ h

theorem pickBest_mem (lt : α → α → Bool) (l : List α) (m : α)
    (h : pickBest lt l = some m) : m ∈ l := by
  cases l with
  | nil => simp [pickBest] at h
  | cons x xs =>
    simp only [pickBest, Option.some.injEq] at h
    rcases pickFold_mem lt x xs with h' | h'
    · rw [← h, h']; exact List.mem_cons_self x xs
    · rw [← h]; exact List.mem_cons_of_mem _ h'

theorem pickBest_isSome (lt : α → α → Bool) (l : List α) (h : l ≠ []) :
    ∃ m, pickBest lt l = some m := by
  cases l with
  | nil => exact absurd rfl h
  | cons x xs => exact ⟨pickFold lt x xs, rfl⟩

/-- Minimality of `pickFold`: no element strictly precedes the picked one,
provided `lt` behaves like the strict order of a (lexicographic) sort key:
irreflexive, transitive and negatively transitive. -/
theorem pickFold_min (lt : α → α → Bool)
    (hirr : ∀ a, lt a a = false)
    (htrans : ∀ a b c, lt a b = true → lt b c = true → lt a c = true)
    (hneg : ∀ a b c, lt a b = false → lt b c = false → lt a c = false)
    (xs : List α) (x : α) :
    lt x (pickFold lt x xs) = false ∧
    ∀ y ∈ xs, lt y (pickFold lt x xs) = false := by
  induction xs generalizing x with
  | nil => exact ⟨hirr x, by simp⟩
  | cons y ys ih =>
    simp only [pickFold]
    cases hc : lt y x with
    | true =>
      rw [if_pos rfl]
      obtain ⟨h1, h2⟩ := ih y
      refine ⟨?_, ?_⟩
      · by_contra hx
        rw [Bool.not_eq_false] at hx
        have := htrans y x _ hc hx
        rw [h1] at this; exact Bool.false_ne_true this
      · intro z hz
        rcases List.mem_cons.mp hz with rfl | hz'
        · exact h1
        · exact h2 z hz'
    | false =>
      rw [if_neg Bool.false_ne_true]
      obtain ⟨h1, h2⟩ := ih x
      refine ⟨h1, ?_⟩
      intro z hz
      rcases List.mem_cons.mp hz with rfl | hz'
      · exact hneg z x _ hc h1
      · exact h2 z hz'

theorem pickBest_min (lt : α → α → Bool)
    (hirr : ∀ a, lt a a = false)
    (htrans : ∀ a b c, lt a b = true → lt b c = true → lt a c = true)
    (hneg : ∀ a b c, lt a b = false → lt b c = false → lt a c = false)
    (l : List α) (m : α) (h : pickBest lt l = some m) :
    ∀ y ∈ l, lt y m = false := by
  cases l with
  | nil => simp [pickBest] at h
  | cons x xs =>
    simp only [pickBest, Option.some.injEq] at h
    subst h
    intro y hy
    obtain ⟨h1, h2⟩ := pickFold_min lt hirr htrans hneg xs x
    rcases List.mem_cons.mp hy with rfl | hy'
    · exact h1
    · exact h2 y hy'

/-! ## Relation schemas -/

/-- A row of the materialised `lpi_base_distinct` temporary table
(`_prepare_lpi_base` in `to_flatfile.py`): the deduplicated base-address
relation. By construction the table only holds rows with
`base_address IS NOT NULL AND base_address <> ''` and
`logical_status IN (1, 3, 6, 8)`. -/
structure LpiDistinctRow where
  uprn : Int
  base_address : String
  postcode : Option String
  logical_status : Int
  official_flag : Option String
  blpu_state : Option String
  postal_address_code : Option String
  parent_uprn : Option Int
  hierarchy_level : Option String
  start_date : Option Int
  end_date : Option Int
  last_update_date : Option Int
deriving DecidableEq, Repr

/-- A row of one of the four `_stage_*_variants` temporary tables (their
common column list, as unioned by `_raw_address_variants`). -/
structure VariantRow where
  uprn : Int
  postcode : Option String
  raw_address : String
  source : String
  logical_status : Option Int
  official_flag : Option String
  blpu_state : Option String
  postal_address_code : Option String
  parent_uprn : Option Int
  hierarchy_level : Option String
  variant_label : Option String
  is_primary : Bool
deriving DecidableEq, Repr

/-- A row of the `normalized`/`deduped` CTEs inside `_combine_and_dedupe`
(the `official_flag` column is dropped there and the raw address has been
normalized into `address_concat`). -/
structure CombinedRow where
  uprn : Int
  postcode : Option String
  address_concat : String
  source : String
  logical_status : Option Int
  blpu_state : Option String
  postal_address_code : Option String
  parent_uprn : Option Int
  hierarchy_level : Option String
  variant_label : Option String
  is_primary : Bool
deriving DecidableEq, Repr

/-- A row of the final output relation of `_combine_and_dedupe` (after the
left joins with `classification_best` and `delivery_point_best`). -/
structure OutRow where
  uprn : Int
  postcode : Option String
  address_concat : String
  classification_code : Option String
  logical_status : Option Int
  blpu_state : Option String
  postal_address_code : Option String
  udprn : Option Int
  parent_uprn : Option Int
  hierarchy_level : Option String
  source : String
  variant_label : Option String
  is_primary : Bool
deriving DecidableEq, Repr

/-- The `status_rank` expression of `_combine_and_dedupe`
(`CASE logical_status WHEN 1 THEN 0 WHEN 3 THEN 1 WHEN 6 THEN 2
WHEN 8 THEN 3 ELSE 9 END`; a NULL status falls into the ELSE branch). -/
def statusRankOf (ls : Option Int) : Int :=
  match ls with
  | some 1 => 0
  | some 3 => 1
  | some 6 => 2
  | some 8 => 3
  | _ => 9

/-- The `status_rank` column of `lpi_base_full`/`lpi_base_distinct`
(same CASE expression over the non-null `logical_status`). -/
def lpiStatusRank (ls : Int) : Int := statusRankOf (some ls)

/-- The `source_rank` expression of `_combine_and_dedupe`
(`CASE source WHEN 'LPI' THEN 0 WHEN 'ORGANISATION' THEN 1
WHEN 'DELIVERY_POINT' THEN 2 WHEN 'CUSTOM_LEVEL' THEN 3 ELSE 4 END`). -/
def sourceRankOf (src : String) : Int :=
  if src = "LPI" then 0
  else if src = "ORGANISATION" then 1
  else if src = "DELIVERY_POINT" then 2
  else if src = "CUSTOM_LEVEL" then 3
  else 4

/-! ## String ordering (DuckDB binary collation, NULLS LAST) -/

/-- Code-point lexicographic strict order on character lists (DuckDB's
default binary string collation). -/
def charListLt : List Char → List Char → Bool
  | [], [] => false
  | [], _ :: _ => true
  | _ :: _, [] => false
  | a :: as, b :: bs =>
    if a.toNat < b.toNat then true
    else if a.toNat = b.toNat then charListLt as bs
    else false

/-- Strict order on strings used by SQL `ORDER BY` over `VARCHAR`. -/
def strLt (a b : String) : Bool := charListLt a.data b.data

/-- Strict order on a nullable string column under DuckDB's default
`ASC NULLS LAST` ordering. -/
def optStrLt (a b : Option String) : Bool :=
  match a, b with
  | some x, some y => strLt x y
  | some _, none => true
  | none, _ => false

/-! ## The Combiner (`_combine_and_dedupe`) -/

/-- Normalization step (`normalized` CTE): drop `official_flag`, normalize
the raw address. -/
def normalizeRow (v : VariantRow) : CombinedRow :=
  { uprn := v.uprn
    postcode := v.postcode
    address_concat := normalizeAddress v.raw_address
    source := v.source
    logical_status := v.logical_status
    blpu_state := v.blpu_state
    postal_address_code := v.postal_address_code
    parent_uprn := v.parent_uprn
    hierarchy_level := v.hierarchy_level
    variant_label := v.variant_label
    is_primary := v.is_primary }

/-- The `PARTITION BY uprn, address_concat` grouping key of the `deduped`
CTE. -/
def dedupKey (r : CombinedRow) : Int × String := (r.uprn, r.address_concat)

/-- The `ORDER BY is_primary DESC, status_rank, source_rank, variant_label,
source` strict order of the `deduped` CTE (`is_primary DESC` makes a
primary row sort before a non-primary one). -/
def dedupLt (a b : CombinedRow) : Bool :=
  let pa : Nat := if a.is_primary then 0 else 1
  let pb : Nat := if b.is_primary then 0 else 1
  if pa < pb then true else if pb < pa then false
  else if statusRankOf a.logical_status < statusRankOf b.logical_status then true
  else if statusRankOf b.logical_status < statusRankOf a.logical_status then false
  else if sourceRankOf a.source < sourceRankOf b.source then true
  else if sourceRankOf b.source < sourceRankOf a.source then false
  else if optStrLt a.variant_label b.variant_label then true
  else if optStrLt b.variant_label a.variant_label then false
  else strLt a.source b.source

/-- Group of rows sharing one `(uprn, address_concat)` key. -/
def groupFor (rows : List CombinedRow) (k : Int × String) : List CombinedRow :=
  rows.filter (fun r => dedupKey r = k)

/-- The `deduped ... WHERE rn = 1` step: keep, for every distinct
`(uprn, address_concat)` key, the first row of its group under `dedupLt`. -/
def dedupeRows (rows : List CombinedRow) : List CombinedRow :=
  ((rows.map dedupKey).dedup).filterMap (fun k => pickBest dedupLt (groupFor rows k))

/-- The `ORDER BY source_rank, variant_label, address_concat` strict order
used by `uprn_rank` in the `source_ranked` CTE (the fallback-primary
choice). The `source_rank` CASE is restated inline there; it equals
`sourceRankOf`. -/
def fallbackLt (a b : CombinedRow) : Bool :=
  if sourceRankOf a.source < sourceRankOf b.source then true
  else if sourceRankOf b.source < sourceRankOf a.source then false
  else if optStrLt a.variant_label b.variant_label then true
  else if optStrLt b.variant_label a.variant_label then false
  else strLt a.address_concat b.address_concat

/-- Final projection of `_combine_and_dedupe` for one surviving row:
`primary_count` and `uprn_rank` are computed over the row's `uprn`
partition of the survivors, classification and delivery point are
left-joined (`classification_best` and `delivery_point_best` have at most
one row per uprn, so they are lookups). -/
def finalizeRow (survivors : List CombinedRow)
    (classificationBest : Int → Option String)
    (deliveryPointBest : Int → Option Int) (v : CombinedRow) : OutRow :=
  let grp := survivors.filter (fun w => w.uprn = v.uprn)
  let primaryCount := grp.countP (fun w => w.is_primary)
  { uprn := v.uprn
    postcode := v.postcode
    address_concat := v.address_concat
    classification_code := classificationBest v.uprn
    logical_status := v.logical_status
    blpu_state := v.blpu_state
    postal_address_code := v.postal_address_code
    udprn := deliveryPointBest v.uprn
    parent_uprn := v.parent_uprn
    hierarchy_level := v.hierarchy_level
    source := v.source
    variant_label := v.variant_label
    is_primary :=
      if 0 < primaryCount then v.is_primary
      else decide (pickBest fallbackLt grp = some v) }

/-- The whole of `_combine_and_dedupe`: normalize the unioned variants,
deduplicate by `(uprn, address_concat)`, re-assign the primary flag, and
enrich with classification/delivery-point data. (The final `ORDER BY`
only fixes presentation order of the emitted relation and is omitted:
all stated properties are about the output as a set of rows.) -/
def combine_and_dedupe (rows : List VariantRow)
    (classificationBest : Int → Option String)
    (deliveryPointBest : Int → Option Int) : List OutRow :=
  let survivors := dedupeRows (rows.map normalizeRow)
  survivors.map (finalizeRow survivors classificationBest deliveryPointBest)

/-! ## The Official (LPI) variant generator (`_render_lpi_variants`) -/

/-- The `variant_label` CASE of `_render_lpi_variants` (no ELSE branch, so
a status outside the closed set yields NULL; `lpi_base_distinct` only
contains statuses 1, 3, 6, 8). -/
def lpiVariantLabel (ls : Int) : Option String :=
  if ls = 1 then some "APPROVED"
  else if ls = 3 then some "ALTERNATIVE"
  else if ls = 6 then some "PROVISIONAL"
  else if ls = 8 then some "HISTORICAL"
  else none

/-- `_render_lpi_variants`: one variant per row of `lpi_base_distinct`,
source `LPI`, `is_primary` iff `logical_status = 1`. -/
def render_lpi_variants (lpi_base_distinct : List LpiDistinctRow) : List VariantRow :=
  lpi_base_distinct.map (fun r =>
    { uprn := r.uprn
      postcode := r.postcode
      raw_address := r.base_address
      source := "LPI"
      logical_status := some r.logical_status
      official_flag := r.official_flag
      blpu_state := r.blpu_state
      postal_address_code := r.postal_address_code
      parent_uprn := r.parent_uprn
      hierarchy_level := r.hierarchy_level
      variant_label := lpiVariantLabel r.logical_status
      is_primary := decide (r.logical_status = (1 : Int)) })

/-! ## Combiner lemmas -/

theorem mem_groupFor {rows : List CombinedRow} {k : Int × String} {r : CombinedRow} :
    r ∈ groupFor rows k ↔ r ∈ rows ∧ dedupKey r = k := by
  simp [groupFor, List.mem_filter]

theorem dedupeRows_sound {rows : List CombinedRow} {m : CombinedRow}
    (h : m ∈ dedupeRows rows) :
    m ∈ rows ∧ pickBest dedupLt (groupFor rows (dedupKey m)) = some m := by
  simp only [dedupeRows, List.mem_filterMap] at h
  obtain ⟨k, _, hk⟩ := h
  have hmem := pickBest_mem dedupLt _ _ hk
  have hkey := (mem_groupFor.mp hmem).2
  exact ⟨(mem_groupFor.mp hmem).1, by rw [hkey]; exact hk⟩

theorem dedupeRows_complete {rows : List CombinedRow} {r : CombinedRow}
    (h : r ∈ rows) : ∃ m ∈ dedupeRows rows, dedupKey m = dedupKey r := by
  have hkmem : dedupKey r ∈ (rows.map dedupKey).dedup :=
    List.mem_dedup.mpr (List.mem_map_of_mem dedupKey h)
  have hne : groupFor rows (dedupKey r) ≠ [] := by
    intro hnil
    have : r ∈ groupFor rows (dedupKey r) := mem_groupFor.mpr ⟨h, rfl⟩
    rw [hnil] at this
    exact absurd this (List.not_mem_nil r)
  obtain ⟨m, hm⟩ := pickBest_isSome dedupLt _ hne
  refine ⟨m, ?_, ?_⟩
  · exact List.mem_filterMap.mpr ⟨dedupKey r, hkmem, hm⟩
  · exact (mem_groupFor.mp (pickBest_mem dedupLt _ _ hm)).2

theorem dedupeRows_nodup (rows : List CombinedRow) : (dedupeRows rows).Nodup := by
  refine List.Nodup.filterMap ?_ (List.nodup_dedup _)
  intro a a' b hb hb'
  rw [Option.mem_def] at hb hb'
  have ha := (mem_groupFor.mp (pickBest_mem dedupLt _ _ hb)).2
  have ha' := (mem_groupFor.mp (pickBest_mem dedupLt _ _ hb')).2
  rw [← ha, ← ha']

theorem dedupeRows_keys_nodup (rows : List CombinedRow) :
    ((dedupeRows rows).map dedupKey).Nodup := by
  refine List.Nodup.map_on ?_ (dedupeRows_nodup rows)
  intro x hx y hy hxy
  have hx' := (dedupeRows_sound hx).2
  have hy' := (dedupeRows_sound hy).2
  rw [hxy] at hx'
  rw [hx'] at hy'
  exact (Option.some.injEq _ _).mp hy'

/-! ## Address rendering macros (`_create_macros` / `transform/common.py`) -/

/-- The `build_component` SQL macro: render one naming level (SAO or PAO)
from its free text, start number/suffix and end number/suffix. The two
CASE expressions have no ELSE branch, so they are NULL (skipped by
`concat_ws`) when their condition fails; `concat(n, COALESCE(sfx, ''))`
casts the integer to its decimal string. -/
def build_component (text : Option String) (startNumber : Option Int)
    (startSuffix : Option String) (endNumber : Option Int)
    (endSuffix : Option String) : String :=
  sqlTrim (concatWs " "
    [ nullifEmpty text,
      match startNumber, endNumber with
      | some s, none => some (toString s ++ coalesceStr startSuffix)
      | _, _ => none,
      match startNumber, endNumber with
      | some s, some e =>
        some (toString s ++ coalesceStr startSuffix ++ "-" ++
              toString e ++ coalesceStr endSuffix)
      | _, _ => none ])

/-- The `build_base_address` SQL macro: SAO component and PAO component
joined into one group (NULLIFed away when both are empty), then street
description, locality and town, all space-separated and trimmed. -/
def build_base_address
    (saoText : Option String) (saoStartNumber : Option Int)
    (saoStartSuffix : Option String) (saoEndNumber : Option Int)
    (saoEndSuffix : Option String)
    (paoText : Option String) (paoStartNumber : Option Int)
    (paoStartSuffix : Option String) (paoEndNumber : Option Int)
    (paoEndSuffix : Option String)
    (streetDescription localityName townName : Option String) : String :=
  sqlTrim (concatWs " "
    [ nullifEmpty (some (sqlTrim (concatWs " "
        [ some (build_component saoText saoStartNumber saoStartSuffix
            saoEndNumber saoEndSuffix),
          some (build_component paoText paoStartNumber paoStartSuffix
            paoEndNumber paoEndSuffix) ]))),
      nullifEmpty streetDescription,
      nullifEmpty localityName,
      nullifEmpty townName ])

/-! ## The Occupant/Business variant generator (`_render_business_variants`) -/

/-- A row of the `organisation` input table (the columns the business
stage reads). -/
structure OrganisationRow where
  uprn : Int
  organisation : Option String
  legal_name : Option String
  start_date : Option Int
  end_date : Option Int
deriving DecidableEq, Repr

/-- One row of the `organisation_candidates` CTE: a single name candidate
(trading name or legal name) for an occupant record. -/
structure OccCandidate where
  uprn : Int
  name_source : String
  name_value : String
  start_date : Option Int
  end_date : Option Int
deriving DecidableEq, Repr

/-- The `organisation_clean` CTE: TRIM both name columns (SQL TRIM of NULL
is NULL). -/
def organisation_clean (orgs : List OrganisationRow) : List OrganisationRow :=
  orgs.map (fun o =>
    { o with organisation := o.organisation.map sqlTrim,
             legal_name := o.legal_name.map sqlTrim })

/-- The `organisation_candidates` CTE: a candidate per non-empty trading
name, plus a candidate per non-empty legal name that differs from the
trading name (a NULL trading name also lets the legal name through). -/
def organisation_candidates (orgs : List OrganisationRow) : List OccCandidate :=
  let clean := organisation_clean orgs
  (clean.filterMap (fun o =>
    match o.organisation with
    | some n => if n ≠ "" then
        some ⟨o.uprn, "ORGANISATION", n, o.start_date, o.end_date⟩ else none
    | none => none))
  ++ (clean.filterMap (fun o =>
    match o.legal_name with
    | some n => if n ≠ "" ∧ (o.organisation = none ∨ o.organisation ≠ some n) then
        some ⟨o.uprn, "LEGAL_NAME", n, o.start_date, o.end_date⟩ else none
    | none => none))

/-- Truth of the lateral join's overlap CASE condition
`(lb.start_date IS NULL OR oc.end_date >= lb.start_date) AND
(lb.end_date IS NULL OR oc.start_date <= lb.end_date)` under SQL
three-valued logic: a comparison with a NULL occupant date is NULL, and a
non-TRUE condition falls into the ELSE 1 branch. -/
def overlapCaseTrue (oc : OccCandidate) (c : LpiDistinctRow) : Bool :=
  (match c.start_date, oc.end_date with
   | none, _ => true
   | some cs, some oe => decide (oe ≥ cs)
   | some _, none => false) &&
  (match c.end_date, oc.start_date with
   | none, _ => true
   | some ce, some os => decide (os ≤ ce)
   | some _, none => false)

/-- Sort key of the lateral `ORDER BY` for historical business variants:
overlap case (0 before 1), then `status_rank` ascending, then
`COALESCE(last_update_date, DATE '0001-01-01') DESC` (encoded by negating
the date). -/
def histKey (oc : OccCandidate) (c : LpiDistinctRow) : Nat × Int × Int :=
  ( if overlapCaseTrue oc c then 0 else 1,
    lpiStatusRank c.logical_status,
    -(c.last_update_date.getD 10101) )

/-- Strict lexicographic order on the historical sort key. -/
def histKeyLt (x y : Nat × Int × Int) : Bool :=
  decide (x.1 < y.1 ∨ (x.1 = y.1 ∧
    (x.2.1 < y.2.1 ∨ (x.2.1 = y.2.1 ∧ x.2.2 < y.2.2))))

/-- Strict order on candidate base-address rows for one occupant record. -/
def histLt (oc : OccCandidate) (a b : LpiDistinctRow) : Bool :=
  histKeyLt (histKey oc a) (histKey oc b)

/-- The correlated lateral subquery of `historical_variants`: among the
`lpi_base_distinct` rows of the occupant's property, the first one under
the overlap/status/recency order (`LIMIT 1`). -/
def select_historical_base (oc : OccCandidate)
    (lpi_base_distinct : List LpiDistinctRow) : Option LpiDistinctRow :=
  pickBest (histLt oc) (lpi_base_distinct.filter (fun c => c.uprn = oc.uprn))

/-- The `historical_variants` CTE together with its union arm's
`WHERE raw_address IS NOT NULL AND raw_address <> ''` filter: for every
candidate with a non-null end date, render the name against the selected
base-address snapshot. -/
def render_business_historical_variants (candidates : List OccCandidate)
    (lpi_base_distinct : List LpiDistinctRow) : List VariantRow :=
  candidates.filterMap (fun oc =>
    if oc.end_date.isSome then
      match select_historical_base oc lpi_base_distinct with
      | none => none
      | some c =>
        let raw := sqlTrim (concatWs " " [some oc.name_value, some c.base_address])
        if raw ≠ "" then
          some { uprn := oc.uprn
                 postcode := c.postcode
                 raw_address := raw
                 source := "ORGANISATION"
                 logical_status := some c.logical_status
                 official_flag := c.official_flag
                 blpu_state := c.blpu_state
                 postal_address_code := c.postal_address_code
                 parent_uprn := c.parent_uprn
                 hierarchy_level := c.hierarchy_level
                 variant_label := some (if oc.name_source = "LEGAL_NAME"
                   then "BUSINESS_HISTORICAL_LEGAL" else "BUSINESS_HISTORICAL")
                 is_primary := false }
        else none
    else none)

/-! ## The Floor-Level variant generator (`_render_custom_level_variants`) -/

/-- The columns of `lpi_base_full` read by the Floor-Level generator
(`base_address` is `build_base_address(...)`, hence never NULL). -/
structure LpiFullRow where
  uprn : Int
  postcode : Option String
  base_address : String
  level : Option String
deriving DecidableEq, Repr

/-- SQL `split_part(s, ',', 1)`: the prefix of `s` up to (excluding) the
first comma, or all of `s` when it has no comma. -/
def takeUntilComma : List Char → List Char
  | [] => []
  | c :: cs => if c == ',' then [] else c :: takeUntilComma cs

/-- First comma-separated part of a level attribute. -/
def splitPartComma1 (s : String) : String := String.mk (takeUntilComma s.data)

/-- Match of the leading token against the regex `^-?[0-9]+$`. -/
def isIntegerToken : List Char → Bool
  | [] => false
  | '-' :: ds => !ds.isEmpty && ds.all (fun c => c.isDigit)
  | ds => ds.all (fun c => c.isDigit)

/-- Decimal value of a digit list. -/
def digitsToNat (l : List Char) : Nat :=
  l.foldl (fun n c => 10 * n + (c.toNat - 48)) 0

/-- Integer value of a token matching `^-?[0-9]+$`. The SQL
`CAST(... AS INTEGER)` is modelled with unbounded integers (level tokens
in range, the only ones the generator keeps, are representable). -/
def parseIntToken (l : List Char) : Int :=
  match l with
  | '-' :: ds => -(digitsToNat ds : Int)
  | ds => (digitsToNat ds : Int)

/-- The `level_int` CASE of `level_parsed`: the leading comma-separated
token, parsed as an integer when it matches `^-?[0-9]+$`, NULL otherwise. -/
def parse_level (level : String) : Option Int :=
  let t := splitPartComma1 level
  if isIntegerToken t.data then some (parseIntToken t.data) else none

/-- The `level_word` CASE of `level_words` (no ELSE branch: values outside
the map give NULL, which the final `WHERE level_word IS NOT NULL` drops). -/
def level_word (n : Int) : Option String :=
  if n = -1 then some "BASEMENT"
  else if n = 0 then some "GROUND"
  else if n = 1 then some "FIRST"
  else if n = 2 then some "SECOND"
  else if n = 3 then some "THIRD"
  else if n = 4 then some "FOURTH"
  else if n = 5 then some "FIFTH"
  else if n = 6 then some "SIXTH"
  else none

/-- The Floor-Level generator applied to one `lpi_base_full` row: the row
passes the `level IS NOT NULL AND base_address IS NOT NULL AND
base_address <> ''` filter, its parsed level must lie `BETWEEN -1 AND 6`
(a NULL `level_int` fails BETWEEN), and the variant renders
`TRIM(concat(level_word, ' ', base_address))`. -/
def render_custom_level_row (r : LpiFullRow) : Option VariantRow :=
  match r.level with
  | none => none
  | some lvl =>
    if r.base_address ≠ "" then
      match parse_level lvl with
      | none => none
      | some n =>
        if -1 ≤ n ∧ n ≤ 6 then
          match level_word n with
          | none => none
          | some w =>
            some { uprn := r.uprn
                   postcode := r.postcode
                   raw_address := sqlTrim (w ++ " " ++ r.base_address)
                   source := "CUSTOM_LEVEL"
                   logical_status := none
                   official_flag := none
                   blpu_state := none
                   postal_address_code := none
                   parent_uprn := none
                   hierarchy_level := none
                   variant_label := some "CUSTOM_LEVEL"
                   is_primary := false }
        else none
    else none

/-- The whole `_render_custom_level_variants` stage. -/
def render_custom_level_variants (lpi_base_full : List LpiFullRow) : List VariantRow :=
  lpi_base_full.filterMap render_custom_level_row

/-! ## Chunk partitioning (`transform/common.py`, `chunk_where`) -/

/-- The `chunk_where` helper: validate the bounds, then emit the SQL WHERE
fragment `"{col} IS NOT NULL AND (hash({col}) % {num_chunks}) = {chunk_id}"`
(raising `ValueError` is modelled as `Except.error` carrying the
exception's message). -/
def chunk_where (col : String) (num_chunks chunk_id : Int) : Except String String :=
  if num_chunks < 1 then
    Except.error ("num_chunks must be >= 1, got " ++ toString num_chunks)
  else if ¬ (0 ≤ chunk_id ∧ chunk_id < num_chunks) then
    Except.error ("chunk_id must be in range [0, " ++ toString num_chunks ++
      "), got " ++ toString chunk_id)
  else
    Except.ok (col ++ " IS NOT NULL AND (hash(" ++ col ++ ") % " ++
      toString num_chunks ++ ") = " ++ toString chunk_id)

/-- Denotation of the emitted WHERE fragment on one row: the fragment
`col IS NOT NULL AND (hash(col) % N) = id` keeps a row whose column value
is non-NULL and whose hash, reduced modulo `N`, equals the chunk id
(DuckDB `hash` returns a UBIGINT, so the hash is a natural number and `%`
is the non-negative remainder). The hash function is abstract: every
property of the fragment proved below holds for any deterministic hash. -/
def chunk_pred (h : α → Nat) (num_chunks chunk_id : Int) (v : Option α) : Bool :=
  match v with
  | none => false
  | some x => decide (((h x : Int) % num_chunks) = chunk_id)

/-! ## The orchestrator (`transform_to_flatfile`) -/

/-- Names of the six parquet files `_assert_inputs_exist` requires. -/
def requiredParquetNames : List String :=
  ["blpu", "lpi", "street_descriptor", "organisation", "delivery_point",
   "classification"]

/-- The durable state `transform_to_flatfile` interacts with: which input
parquet files exist, and the current contents of the output parquet file
(`None` when the file does not exist). -/
structure FsState where
  inputFiles : List String
  output : Option (List OutRow)
deriving DecidableEq, Repr

/-- Name of the output parquet file. -/
def outputFileName : String := "abp_for_uk_address_matcher.parquet"

/-- SQL `COUNT(DISTINCT uprn)`. -/
def distinctCount (l : List Int) : Nat := l.dedup.length

/-- The orchestrator `transform_to_flatfile`, modelled over the prepared
intermediate relations (the earlier `_prepare_*`/`_render_*` stages
produce `lpi_base_distinct` and the three non-LPI variant stage tables;
`classification_best` and `delivery_point_best` keep at most one row per
uprn and enter as lookups). Faithfully in source order: check inputs,
then skip when unforced output exists, then combine, then the integrity
assertion comparing distinct uprn counts, then the variant-uplift
statistic — whose expression
`((total_variants - output_uprn_count) / output_uprn_count) * 100`
raises `ZeroDivisionError` when the output has no rows — and only then
replace the output file. On any error the output file is untouched. -/
def transform_to_flatfile (fs : FsState) (force : Bool)
    (lpi_base_distinct : List LpiDistinctRow)
    (business_variants delivery_point_variants custom_level_variants : List VariantRow)
    (classificationBest : Int → Option String)
    (deliveryPointBest : Int → Option Int) : FsState × Except String String :=
  let missing := requiredParquetNames.filter (fun n => ¬ n ∈ fs.inputFiles)
  if missing ≠ [] then
    (fs, Except.error ("Missing required parquet files: " ++ toString missing ++
      ". Run --step split first."))
  else if fs.output.isSome ∧ ¬ force then
    (fs, Except.ok outputFileName)
  else
    let result := combine_and_dedupe
      (render_lpi_variants lpi_base_distinct ++ business_variants ++
        delivery_point_variants ++ custom_level_variants)
      classificationBest deliveryPointBest
    let inputUprnCount := distinctCount (lpi_base_distinct.map (fun r => r.uprn))
    let outputUprnCount := distinctCount (result.map (fun r => r.uprn))
    if inputUprnCount ≠ outputUprnCount then
      (fs, Except.error ("Lost UPRNs during processing! Input: " ++
        toString inputUprnCount ++ ", Output: " ++ toString outputUprnCount))
    else if outputUprnCount = 0 then
      (fs, Except.error "division by zero")
    else
      ({ fs with output := some result }, Except.ok outputFileName)

/-! ## TRIM support lemmas -/

theorem length_dropWhile_le (p : α → Bool) (l : List α) :
    (l.dropWhile p).length ≤ l.length := by
  induction l with
  | nil => simp
  | cons a t ih =>
    rw [List.dropWhile_cons]
    by_cases h : p a
    · simp only [h, if_pos]
      exact Nat.le_trans ih (Nat.le_succ _)
    · simp [h]

theorem dropWhile_head_false (p : α → Bool) (a : α) (t : List α)
    (h : (a :: t).dropWhile p = a :: t) : p a = false := by
  by_contra hp
  rw [Bool.not_eq_false] at hp
  rw [List.dropWhile_cons_of_pos hp] at h
  have := length_dropWhile_le p t
  rw [h] at this
  simp at this

theorem dropWhile_eq_self_of_length (p : α → Bool) (l : List α)
    (h : (l.dropWhile p).length = l.length) : l.dropWhile p = l := by
  cases l with
  | nil => simp
  | cons a t =>
    rw [List.dropWhile_cons]
    by_cases hp : p a
    · exfalso
      rw [List.dropWhile_cons_of_pos hp] at h
      have := length_dropWhile_le p t
      rw [h] at this
      simp at this
    · simp [hp]

theorem dropWhile_dropWhile (p : α → Bool) (l : List α) :
    (l.dropWhile p).dropWhile p = l.dropWhile p := by
  cases h : l.dropWhile p with
  | nil => simp
  | cons c t =>
    have hc : p c = false := by
      have hsuffix := List.dropWhile_suffix (l := l) p
      rw [h] at hsuffix
      obtain ⟨pre, hpre⟩ := hsuffix
      -- c :: t is a suffix of l; its dropWhile equals itself in l's dropWhile?
      -- direct: use dropWhile_head_false on the dropWhile equation of c :: t
      -- dropWhile p (c :: t): we know dropWhile p l = c :: t; dropWhile is
      -- idempotent on its own output because its head fails p.
      -- prove p c = false by induction on l instead.
      clear hpre pre
      induction l with
      | nil => simp at h
      | cons a t' ih =>
        rw [List.dropWhile_cons] at h
        by_cases ha : p a
        · rw [if_pos ha] at h
          exact ih h
        · rw [if_neg ha] at h
          cases h
          simpa using ha
    rw [List.dropWhile_cons_of_neg (by simp [hc])]

theorem trimList_facts (l : List Char) (h : trimList l = l) :
    l.dropWhile (fun c => c == ' ') = l ∧
    l.reverse.dropWhile (fun c => c == ' ') = l.reverse := by
  have hlen1 : ((l.dropWhile (fun c => c == ' ')).reverse.dropWhile
      (fun c => c == ' ')).length ≤ (l.dropWhile (fun c => c == ' ')).length := by
    have := length_dropWhile_le (fun c => c == ' ')
      (l.dropWhile (fun c => c == ' ')).reverse
    simpa using this
  have hlen2 : (l.dropWhile (fun c => c == ' ')).length ≤ l.length :=
    length_dropWhile_le _ l
  have hlen0 : (trimList l).length = l.length := by rw [h]
  have hlen0' : ((l.dropWhile (fun c => c == ' ')).reverse.dropWhile
      (fun c => c == ' ')).length = l.length := by
    simpa [trimList] using hlen0
  have heq1 : (l.dropWhile (fun c => c == ' ')).length = l.length :=
    Nat.le_antisymm hlen2 (by rw [← hlen0']; exact hlen1)
  have hfirst : l.dropWhile (fun c => c == ' ') = l :=
    dropWhile_eq_self_of_length _ _ heq1
  refine ⟨hfirst, ?_⟩
  have hlen3 : (l.reverse.dropWhile (fun c => c == ' ')).length = l.reverse.length := by
    rw [List.length_reverse]
    rw [hfirst] at hlen0'
    exact hlen0'
  exact dropWhile_eq_self_of_length _ _ hlen3

theorem string_ne_empty_data {s : String} (h : s ≠ "") : s.data ≠ [] := by
  intro hd
  apply h
  cases s with
  | mk data => cases hd; rfl

/-- Trimming `w ++ " " ++ b` is the identity when both `w` and `b` are
themselves trimmed and non-empty. -/
theorem sqlTrim_append_sep (w b : String)
    (hw : trimList w.data = w.data) (hwne : w ≠ "")
    (hb : trimList b.data = b.data) (hbne : b ≠ "") :
    sqlTrim (w ++ " " ++ b) = w ++ " " ++ b := by
  obtain ⟨hw1, _⟩ := trimList_facts w.data hw
  obtain ⟨_, hb2⟩ := trimList_facts b.data hb
  have hdata : (w ++ " " ++ b).data = w.data ++ (' ' :: b.data) := by
    rw [String.data_append, String.data_append]
    simp
  -- head of w.data fails the space test
  obtain ⟨wc, wt, hwdata⟩ : ∃ c t, w.data = c :: t := by
    cases hwd : w.data with
    | nil => exact absurd hwd (string_ne_empty_data hwne)
    | cons c t => exact ⟨c, t, rfl⟩
  have hwc : (wc == ' ') = false := by
    rw [hwdata] at hw1
    exact dropWhile_head_false (fun c => c == ' ') wc wt hw1
  -- head of b.data.reverse fails the space test
  obtain ⟨bc, bt, hbdata⟩ : ∃ c t, b.data.reverse = c :: t := by
    cases hbd : b.data.reverse with
    | nil =>
      exfalso
      exact string_ne_empty_data hbne (by simpa using congrArg List.reverse hbd)
    | cons c t => exact ⟨c, t, rfl⟩
  have hbc : (bc == ' ') = false := by
    rw [hbdata] at hb2
    exact dropWhile_head_false (fun c => c == ' ') bc bt hb2
  -- now compute the trim
  show String.mk (trimList (w ++ " " ++ b).data) = w ++ " " ++ b
  rw [hdata, hwdata, List.cons_append]
  unfold trimList
  rw [List.dropWhile_cons_of_neg (by simp [hwc])]
  have hrev : (wc :: (wt ++ ' ' :: b.data)).reverse =
      bc :: (bt ++ ' ' :: (wt.reverse ++ [wc])) := by
    simp [hbdata]
  rw [hrev]
  rw [List.dropWhile_cons_of_neg (by simp [hbc])]
  have hback : (bc :: (bt ++ ' ' :: (wt.reverse ++ [wc]))).reverse =
      wc :: (wt ++ ' ' :: b.data) := by
    rw [← hrev, List.reverse_reverse]
  rw [hback, ← List.cons_append, ← hwdata, ← hdata]

/-! ## Laws of the historical sort order -/

theorem histKeyLt_irrefl (x : Nat × Int × Int) : histKeyLt x x = false := by
  simp [histKeyLt]

theorem histKeyLt_trans (x y z : Nat × Int × Int)
    (h1 : histKeyLt x y = true) (h2 : histKeyLt y z = true) :
    histKeyLt x z = true := by
  simp only [histKeyLt, decide_eq_true_eq] at *
  omega

theorem histKeyLt_neg (x y z : Nat × Int × Int)
    (h1 : histKeyLt x y = false) (h2 : histKeyLt y z = false) :
    histKeyLt x z = false := by
  simp only [histKeyLt, decide_eq_false_iff_not] at *
  omega

theorem histLt_irrefl (oc : OccCandidate) (a : LpiDistinctRow) :
    histLt oc a a = false := histKeyLt_irrefl _

theorem histLt_trans (oc : OccCandidate) (a b c : LpiDistinctRow)
    (h1 : histLt oc a b = true) (h2 : histLt oc b c = true) :
    histLt oc a c = true := histKeyLt_trans _ _ _ h1 h2

theorem histLt_neg (oc : OccCandidate) (a b c : LpiDistinctRow)
    (h1 : histLt oc a b = false) (h2 : histLt oc b c = false) :
    histLt oc a c = false := histKeyLt_neg _ _ _ h1 h2

/-- C3: for every occupant record with a non-null end date whose property
has at least one row in the distinct base-address relation, the
historical business variant is rendered from the base-address row chosen
by ordering that property's candidates first by temporal overlap (null
candidate bounds unbounded, under SQL three-valued logic), then by
ascending status rank, then by descending last-update date (null treated
as the epoch `0001-01-01`), taking the first; in particular, whenever any
candidate overlaps, the selected row overlaps (so an overlapping snapshot
beats a non-overlapping but more recently updated one). -/
theorem c3_business_temporal_match (oc : OccCandidate)
    (lpi_base_distinct : List LpiDistinctRow) (e : Int)
    (hend : oc.end_date = some e)
    (hne : lpi_base_distinct.filter (fun c => c.uprn = oc.uprn) ≠ []) :
    ∃ c, select_historical_base oc lpi_base_distinct = some c ∧
      c ∈ lpi_base_distinct.filter (fun c => c.uprn = oc.uprn) ∧
      (∀ c' ∈ lpi_base_distinct.filter (fun c => c.uprn = oc.uprn),
        histLt oc c' c = false) ∧
      ((∃ c' ∈ lpi_base_distinct.filter (fun c => c.uprn = oc.uprn),
        overlapCaseTrue oc c' = true) → overlapCaseTrue oc c = true) ∧
      (∀ v ∈ render_business_historical_variants [oc] lpi_base_distinct,
        v.raw_address = sqlTrim (concatWs " "
          [some oc.name_value, some c.base_address])) := by
  obtain ⟨m, hm⟩ := pickBest_isSome (histLt oc) _ hne
  refine ⟨m, hm, pickBest_mem _ _ _ hm, ?_, ?_, ?_⟩
  · exact pickBest_min (histLt oc) (histLt_irrefl oc)
      (histLt_trans oc) (histLt_neg oc) _ m hm
  · rintro ⟨c', hc', hov⟩
    by_contra hbad
    rw [Bool.not_eq_true] at hbad
    have hmin := pickBest_min (histLt oc) (histLt_irrefl oc)
      (histLt_trans oc) (histLt_neg oc) _ m hm c' hc'
    simp [histLt, histKeyLt, histKey, hov, hbad] at hmin
  · intro v hv
    simp only [render_business_historical_variants, List.mem_filterMap,
      List.mem_singleton] at hv
    obtain ⟨a, ha, hfa⟩ := hv
    subst ha
    rw [hend] at hfa
    simp only [Option.isSome_some, if_true, select_historical_base] at hfa
    rw [hm] at hfa
    simp at hfa
    rw [← hfa.2]

/-! ## Component rendering (C7) -/

theorem intercalate_pair (s a b : String) :
    String.intercalate s [a, b] = a ++ s ++ b := by
  simp [String.intercalate, String.intercalate.go]

theorem intercalate_single (s a : String) : String.intercalate s [a] = a := by
  simp [String.intercalate, String.intercalate.go]

/-- C7: for each naming level, the rendered component equals the free-text
name (when non-empty), followed by the start number with its suffix when
only the start number is set, or by start-suffix-dash-end when both
numbers are set, non-empty parts joined by single spaces, result trimmed;
a component with no numeric range is just the trimmed text. -/
theorem c7_component_rendering (t : String) (s e : Int)
    (ss es : Option String) (ht : t ≠ "") :
    build_component (some t) (some s) ss none es =
      sqlTrim (t ++ " " ++ (toString s ++ coalesceStr ss)) ∧
    build_component (some t) (some s) ss (some e) es =
      sqlTrim (t ++ " " ++ (toString s ++ coalesceStr ss ++ "-" ++
        toString e ++ coalesceStr es)) ∧
    build_component none (some s) ss none es =
      sqlTrim (toString s ++ coalesceStr ss) ∧
    build_component none (some s) ss (some e) es =
      sqlTrim (toString s ++ coalesceStr ss ++ "-" ++
        toString e ++ coalesceStr es) ∧
    (∀ en, build_component (some t) none ss en es = sqlTrim t) := by
  refine ⟨?_, ?_, ?_, ?_, ?_⟩
  · simp [build_component, concatWs, nullifEmpty, ht, intercalate_pair]
  · simp [build_component, concatWs, nullifEmpty, ht, intercalate_pair]
  · simp [build_component, concatWs, nullifEmpty, intercalate_single]
  · simp [build_component, concatWs, nullifEmpty, intercalate_single]
  · intro en
    cases en with
    | none => simp [build_component, concatWs, nullifEmpty, ht, intercalate_single]
    | some e' => simp [build_component, concatWs, nullifEmpty, ht, intercalate_single]

/-- Witness for C7 at the spec's own examples: text `Flat A` with start
number 10 and no end number renders `Flat A 10`; start number 10 with end
number 12 renders `10-12`. -/
theorem c7_component_rendering_witness :
    ("Flat A" ≠ "" ∧
      build_component (some "Flat A") (some 10) none none none = "Flat A 10" ∧
      build_component none (some 10) none (some 12) none = "10-12") ∧
    (build_component (some "Flat A") (some 10) none none none =
      sqlTrim ("Flat A" ++ " " ++ (toString (10 : Int) ++ coalesceStr none)) ∧
    build_component (some "Flat A") (some 10) none (some 12) none =
      sqlTrim ("Flat A" ++ " " ++ (toString (10 : Int) ++ coalesceStr none ++ "-" ++
        toString (12 : Int) ++ coalesceStr none)) ∧
    build_component none (some 10) none none none =
      sqlTrim (toString (10 : Int) ++ coalesceStr none) ∧
    build_component none (some 10) none (some 12) none =
      sqlTrim (toString (10 : Int) ++ coalesceStr none ++ "-" ++
        toString (12 : Int) ++ coalesceStr none) ∧
    (∀ en, build_component (some "Flat A") none none en none = sqlTrim "Flat A")) :=
  ⟨by decide, c7_component_rendering "Flat A" 10 12 none none (by decide)⟩

/-! ## Floor-Level mapping (C6) -/

theorem render_custom_level_row_pos (r : LpiFullRow) (lvl : String)
    (n : Int) (w : String)
    (hlvl : r.level = some lvl) (hbase : r.base_address ≠ "")
    (hn : parse_level lvl = some n) (hrange : -1 ≤ n ∧ n ≤ 6)
    (hw : level_word n = some w)
    (hwt : trimList w.data = w.data) (hwne : w ≠ "")
    (htrimL : trimList r.base_address.data = r.base_address.data) :
    render_custom_level_row r = some
      { uprn := r.uprn
        postcode := r.postcode
        raw_address := w ++ " " ++ r.base_address
        source := "CUSTOM_LEVEL"
        logical_status := none
        official_flag := none
        blpu_state := none
        postal_address_code := none
        parent_uprn := none
        hierarchy_level := none
        variant_label := some "CUSTOM_LEVEL"
        is_primary := false } := by
  have htrim : sqlTrim r.base_address = r.base_address := by
    show String.mk (trimList r.base_address.data) = r.base_address
    rw [htrimL]
  simp only [render_custom_level_row, hlvl, hn, hw]
  rw [if_pos hbase, if_pos hrange]
  rw [sqlTrim_append_sep w r.base_address hwt hwne
    (congrArg String.data htrim) hbase]

/-- C6: for every full base-address row with a non-empty base address, the
Floor-Level generator parses the leading integer token of the level
attribute; a missing level, a non-numeric token or a value outside
`[-1, 6]` yields no variant, and otherwise exactly one variant is
produced whose rendered address is the word for the integer followed by a
space and the base address. (The base address of `lpi_base_full` is
produced by `build_base_address`, whose outermost operation is `TRIM`, so
it is its own trim — the hypothesis `htrim`.) -/
theorem c6_floor_level_mapping (r : LpiFullRow)
    (hbase : r.base_address ≠ "")
    (htrim : sqlTrim r.base_address = r.base_address) :
    (r.level = none → render_custom_level_row r = none) ∧
    (∀ lvl, r.level = some lvl →
      (parse_level lvl = none → render_custom_level_row r = none) ∧
      (∀ n, parse_level lvl = some n →
        ((n < -1 ∨ 6 < n) → render_custom_level_row r = none) ∧
        (-1 ≤ n → n ≤ 6 → ∃ w, level_word n = some w ∧
          render_custom_level_row r = some
            { uprn := r.uprn
              postcode := r.postcode
              raw_address := w ++ " " ++ r.base_address
              source := "CUSTOM_LEVEL"
              logical_status := none
              official_flag := none
              blpu_state := none
              postal_address_code := none
              parent_uprn := none
              hierarchy_level := none
              variant_label := some "CUSTOM_LEVEL"
              is_primary := false }))) := by
  have htrimL : trimList r.base_address.data = r.base_address.data :=
    congrArg String.data htrim
  refine ⟨?_, ?_⟩
  · intro h
    simp [render_custom_level_row, h]
  · intro lvl hlvl
    refine ⟨?_, ?_⟩
    · intro hp
      simp only [render_custom_level_row, hlvl, hp]
      rw [if_pos hbase]
    · intro n hn
      refine ⟨?_, ?_⟩
      · intro hout
        simp only [render_custom_level_row, hlvl, hn]
        rw [if_pos hbase, if_neg (by omega)]
      · intro h1 h2
        interval_cases n
        · exact ⟨"BASEMENT", rfl, render_custom_level_row_pos r lvl _ _
            hlvl hbase hn (by omega) rfl (by decide) (by decide) htrimL⟩
        · exact ⟨"GROUND", rfl, render_custom_level_row_pos r lvl _ _
            hlvl hbase hn (by omega) rfl (by decide) (by decide) htrimL⟩
        · exact ⟨"FIRST", rfl, render_custom_level_row_pos r lvl _ _
            hlvl hbase hn (by omega) rfl (by decide) (by decide) htrimL⟩
        · exact ⟨"SECOND", rfl, render_custom_level_row_pos r lvl _ _
            hlvl hbase hn (by omega) rfl (by decide) (by decide) htrimL⟩
        · exact ⟨"THIRD", rfl, render_custom_level_row_pos r lvl _ _
            hlvl hbase hn (by omega) rfl (by decide) (by decide) htrimL⟩
        · exact ⟨"FOURTH", rfl, render_custom_level_row_pos r lvl _ _
            hlvl hbase hn (by omega) rfl (by decide) (by decide) htrimL⟩
        · exact ⟨"FIFTH", rfl, render_custom_level_row_pos r lvl _ _
            hlvl hbase hn (by omega) rfl (by decide) (by decide) htrimL⟩
        · exact ⟨"SIXTH", rfl, render_custom_level_row_pos r lvl _ _
            hlvl hbase hn (by omega) rfl (by decide) (by decide) htrimL⟩

/-- Concrete `lpi_base_full` row used by the C6 witness. -/
def c6WitnessRow : LpiFullRow :=
  { uprn := 7
    postcode := some "AA1 1AA"
    base_address := "FLAT A 10 HIGH STREET"
    level := some "3" }

/-- Family of concrete rows probing the level mapping at the spec's
example values. -/
def c6LevelRow (lvl : String) : LpiFullRow :=
  { uprn := 7
    postcode := none
    base_address := "X"
    level := some lvl }

/-- Witness for C6 at concrete rows, including the spec's examples:
level `3` produces `THIRD ...`, `-1` produces `BASEMENT ...`, `0` produces
`GROUND ...`, `6` produces `SIXTH ...`, while `7` and `abc` produce no
variant. -/
theorem c6_floor_level_mapping_witness :
    (c6WitnessRow.base_address ≠ "" ∧
      sqlTrim c6WitnessRow.base_address = c6WitnessRow.base_address ∧
      (render_custom_level_row (c6LevelRow "-1")).map
          (fun v => v.raw_address) = some "BASEMENT X" ∧
      (render_custom_level_row (c6LevelRow "0")).map
          (fun v => v.raw_address) = some "GROUND X" ∧
      (render_custom_level_row (c6LevelRow "6")).map
          (fun v => v.raw_address) = some "SIXTH X" ∧
      render_custom_level_row (c6LevelRow "7") = none ∧
      render_custom_level_row (c6LevelRow "abc") = none) ∧
    ((c6WitnessRow.level = none →
        render_custom_level_row c6WitnessRow = none) ∧
      (∀ lvl, c6WitnessRow.level = some lvl →
        (parse_level lvl = none →
          render_custom_level_row c6WitnessRow = none) ∧
        (∀ n, parse_level lvl = some n →
          ((n < -1 ∨ 6 < n) →
            render_custom_level_row c6WitnessRow = none) ∧
          (-1 ≤ n → n ≤ 6 → ∃ w, level_word n = some w ∧
            render_custom_level_row c6WitnessRow = some
              { uprn := c6WitnessRow.uprn
                postcode := c6WitnessRow.postcode
                raw_address := w ++ " " ++ c6WitnessRow.base_address
                source := "CUSTOM_LEVEL"
                logical_status := none
                official_flag := none
                blpu_state := none
                postal_address_code := none
                parent_uprn := none
                hierarchy_level := none
                variant_label := some "CUSTOM_LEVEL"
                is_primary := false })))) :=
  ⟨by decide, c6_floor_level_mapping c6WitnessRow (by decide) (by decide)⟩

/-! ## Claims about the Combiner (C1, C2, C4) -/

/-- C1: every property identifier appearing in at least one row of the
deduplicated base-address relation `lpi_base_distinct` appears in at least
one row of the combined output of `_combine_and_dedupe` (whatever the
other three generators contributed). -/
theorem c1_no_loss (lpi_base_distinct : List LpiDistinctRow)
    (business_variants delivery_point_variants custom_level_variants : List VariantRow)
    (classificationBest : Int → Option String)
    (deliveryPointBest : Int → Option Int) (u : Int)
    (h : ∃ r ∈ lpi_base_distinct, r.uprn = u) :
    ∃ o ∈ combine_and_dedupe
        (render_lpi_variants lpi_base_distinct ++ business_variants ++
          delivery_point_variants ++ custom_level_variants)
        classificationBest deliveryPointBest,
      o.uprn = u := by
  obtain ⟨r, hr, hru⟩ := h
  have h1 : ∃ v ∈ render_lpi_variants lpi_base_distinct, v.uprn = u := by
    simp only [render_lpi_variants, List.mem_map]
    exact ⟨_, ⟨r, hr, rfl⟩, hru⟩
  obtain ⟨v, hv1, hvu⟩ := h1
  have hvmem : v ∈ (render_lpi_variants lpi_base_distinct ++ business_variants ++
      delivery_point_variants ++ custom_level_variants) :=
    List.mem_append_left _ (List.mem_append_left _ (List.mem_append_left _ hv1))
  have hn : normalizeRow v ∈ (render_lpi_variants lpi_base_distinct ++
      business_variants ++ delivery_point_variants ++
      custom_level_variants).map normalizeRow :=
    List.mem_map_of_mem _ hvmem
  obtain ⟨m, hmmem, hmkey⟩ := dedupeRows_complete hn
  have hmu : m.uprn = u := by
    have : (dedupKey m).1 = (dedupKey (normalizeRow v)).1 := by rw [hmkey]
    simpa [dedupKey, normalizeRow, hvu] using this
  refine ⟨finalizeRow (dedupeRows ((render_lpi_variants lpi_base_distinct ++
      business_variants ++ delivery_point_variants ++
      custom_level_variants).map normalizeRow))
      classificationBest deliveryPointBest m, ?_, ?_⟩
  · simp only [combine_and_dedupe]
    exact List.mem_map_of_mem _ hmmem
  · simpa [finalizeRow] using hmu

/-- Concrete `lpi_base_distinct` row used by the C1 witness. -/
def c1WitnessRow : LpiDistinctRow :=
  { uprn := 42
    base_address := "10 HIGH STREET TOWN"
    postcode := some "AA1 1AA"
    logical_status := 1
    official_flag := none
    blpu_state := none
    postal_address_code := none
    parent_uprn := none
    hierarchy_level := some "S"
    start_date := none
    end_date := none
    last_update_date := some 20200101 }

/-- Witness for C1: a one-row base-address relation keeps its uprn in the
combined output. -/
theorem c1_no_loss_witness :
    (∃ r ∈ [c1WitnessRow], r.uprn = 42) ∧
    (∃ o ∈ combine_and_dedupe
        (render_lpi_variants [c1WitnessRow] ++ [] ++ [] ++ [])
        (fun _ => none) (fun _ => none),
      o.uprn = 42) :=
  ⟨⟨c1WitnessRow, by decide, by decide⟩,
    c1_no_loss [c1WitnessRow] [] [] [] (fun _ => none) (fun _ => none) 42
      ⟨c1WitnessRow, by decide, by decide⟩⟩

theorem finalizeRow_uprn (s : List CombinedRow) (cls : Int → Option String)
    (dpb : Int → Option Int) (v : CombinedRow) :
    (finalizeRow s cls dpb v).uprn = v.uprn := rfl

theorem finalizeRow_addr (s : List CombinedRow) (cls : Int → Option String)
    (dpb : Int → Option Int) (v : CombinedRow) :
    (finalizeRow s cls dpb v).address_concat = v.address_concat := rfl

/-- The primary flag a surviving row receives, expressed over the group of
survivors sharing its uprn. -/
theorem finalizeRow_is_primary (s : List CombinedRow)
    (cls : Int → Option String) (dpb : Int → Option Int)
    (v : CombinedRow) (u : Int) (hv : v.uprn = u) :
    (finalizeRow s cls dpb v).is_primary =
      (if 0 < (s.filter (fun w => w.uprn = u)).countP (fun w => w.is_primary)
       then v.is_primary
       else decide (pickBest fallbackLt (s.filter (fun w => w.uprn = u)) = some v)) := by
  simp only [finalizeRow, hv]

theorem countP_eq_one_of_nodup_mem {α} [DecidableEq α] (l : List α) (m : α)
    (hnd : l.Nodup) (hm : m ∈ l) :
    l.countP (fun v => decide (v = m)) = 1 := by
  induction l with
  | nil => cases hm
  | cons a t ih =>
    rw [List.countP_cons]
    rcases List.mem_cons.mp hm with rfl | hmt
    · have hz : t.countP (fun v => decide (v = m)) = 0 := by
        apply List.countP_eq_zero.mpr
        intro x hx
        simp only [decide_eq_true_eq]
        intro hxa
        subst hxa
        exact (List.nodup_cons.mp hnd).1 hx
      simp [hz]
    · have ha : a ≠ m := by
        intro h
        subst h
        exact (List.nodup_cons.mp hnd).1 hmt
      rw [ih (List.nodup_cons.mp hnd).2 hmt]
      simp [ha]

/-- C2 (amended): for every property identifier with at least one row in
the combined output, at least one of its output rows has
`is_primary = true`; and when at most one surviving deduplicated row of
that property is already flagged primary, exactly one output row is
primary. (When two or more distinct surviving address strings are already
primary — e.g. two distinct Approved base addresses — the Combiner leaves
all their flags set, so more than one output row is primary.) -/
theorem c2_single_primary (rows : List VariantRow)
    (classificationBest : Int → Option String)
    (deliveryPointBest : Int → Option Int) (u : Int)
    (hrow : ∃ o ∈ combine_and_dedupe rows classificationBest deliveryPointBest,
      o.uprn = u) :
    (∃ o ∈ combine_and_dedupe rows classificationBest deliveryPointBest,
      o.uprn = u ∧ o.is_primary = true) ∧
    ((dedupeRows (rows.map normalizeRow)).countP
        (fun w => w.uprn = u ∧ w.is_primary = true) ≤ 1 →
      (combine_and_dedupe rows classificationBest deliveryPointBest).countP
        (fun o => o.uprn = u ∧ o.is_primary = true) = 1) := by
  classical
  set S := dedupeRows (rows.map normalizeRow) with hS
  have hout : combine_and_dedupe rows classificationBest deliveryPointBest =
      S.map (finalizeRow S classificationBest deliveryPointBest) := rfl
  obtain ⟨o, ho, hou⟩ := hrow
  rw [hout] at ho
  obtain ⟨v0, hv0, hv0eq⟩ := List.mem_map.mp ho
  have hv0u : v0.uprn = u := by
    rw [← finalizeRow_uprn S classificationBest deliveryPointBest v0, hv0eq, hou]
  set grp := S.filter (fun w => w.uprn = u) with hgrp
  have hv0grp : v0 ∈ grp := List.mem_filter.mpr ⟨hv0, by simp [hv0u]⟩
  have hgrpne : grp ≠ [] := by
    intro hnil
    rw [hnil] at hv0grp
    exact (List.not_mem_nil v0) hv0grp
  have hgrpnd : grp.Nodup := List.Nodup.filter _ (dedupeRows_nodup _)
  set pc := grp.countP (fun w => w.is_primary) with hpc
  have hmemu : ∀ w, w ∈ grp → w ∈ S ∧ w.uprn = u := by
    intro w hw
    refine ⟨(List.mem_filter.mp hw).1, ?_⟩
    have := (List.mem_filter.mp hw).2
    simpa using this
  have hpc_eq : S.countP (fun w => w.uprn = u ∧ w.is_primary = true) = pc := by
    rw [hpc, hgrp, List.countP_filter]
    apply List.countP_congr
    intro w _
    constructor
    · intro hx
      simp only [decide_eq_true_eq] at hx
      simp [hx.1, hx.2]
    · intro hx
      simp only [Bool.and_eq_true, decide_eq_true_eq] at hx
      simp [hx.1, hx.2]
  constructor
  · -- at least one primary row
    by_cases hpcpos : 0 < pc
    · obtain ⟨w, hwgrp, hwprim⟩ := List.countP_pos_iff.mp (hpc ▸ hpcpos)
      obtain ⟨hwS, hwu⟩ := hmemu w hwgrp
      refine ⟨finalizeRow S classificationBest deliveryPointBest w, ?_, hwu, ?_⟩
      · rw [hout]
        exact List.mem_map_of_mem _ hwS
      · rw [finalizeRow_is_primary S classificationBest deliveryPointBest w u hwu]
        rw [← hgrp, ← hpc, if_pos hpcpos]
        exact hwprim
    · obtain ⟨m, hm⟩ := pickBest_isSome fallbackLt grp hgrpne
      have hmgrp := pickBest_mem fallbackLt grp m hm
      obtain ⟨hmS, hmu⟩ := hmemu m hmgrp
      refine ⟨finalizeRow S classificationBest deliveryPointBest m, ?_, hmu, ?_⟩
      · rw [hout]
        exact List.mem_map_of_mem _ hmS
      · rw [finalizeRow_is_primary S classificationBest deliveryPointBest m u hmu]
        rw [← hgrp, ← hpc, if_neg hpcpos]
        simp [hm]
  · -- exactly one when at most one pre-flagged primary
    intro hle
    rw [hpc_eq] at hle
    rw [hout, List.countP_map]
    have hsplit : List.countP
        ((fun o => decide (o.uprn = u ∧ o.is_primary = true)) ∘
          (finalizeRow S classificationBest deliveryPointBest)) S =
        List.countP (fun v => decide (v.uprn = u) &&
          (finalizeRow S classificationBest deliveryPointBest v).is_primary) S := by
      apply List.countP_congr
      intro v _
      simp [Function.comp, finalizeRow_uprn]
    rw [hsplit]
    rcases Nat.le_one_iff_eq_zero_or_eq_one.mp hle with hzero | hone
    · -- fallback promotion: exactly the deterministic first row is primary
      obtain ⟨m, hm⟩ := pickBest_isSome fallbackLt grp hgrpne
      have hmgrp := pickBest_mem fallbackLt grp m hm
      have hcongr : List.countP (fun v => decide (v.uprn = u) &&
          (finalizeRow S classificationBest deliveryPointBest v).is_primary) S =
          List.countP (fun v => decide (v.uprn = u) && decide (v = m)) S := by
        apply List.countP_congr
        intro v hv
        by_cases hvu : v.uprn = u
        · rw [finalizeRow_is_primary S classificationBest deliveryPointBest v u hvu]
          rw [← hgrp, if_neg (by rw [← hpc]; omega), hm]
          simp [hvu, eq_comm]
        · simp [hvu]
      rw [hcongr]
      have hback : List.countP (fun v => decide (v.uprn = u) && decide (v = m)) S =
          List.countP (fun v => decide (v = m)) grp := by
        rw [hgrp, List.countP_filter]
        apply List.countP_congr
        intro v _
        constructor
        · intro hx
          simp only [Bool.and_eq_true, decide_eq_true_eq] at hx ⊢
          exact ⟨hx.2, hx.1⟩
        · intro hx
          simp only [Bool.and_eq_true, decide_eq_true_eq] at hx ⊢
          exact ⟨hx.2, hx.1⟩
      rw [hback]
      exact countP_eq_one_of_nodup_mem grp m hgrpnd hmgrp
    · -- flags left as-is: the single pre-flagged row remains the one primary
      have hcongr : List.countP (fun v => decide (v.uprn = u) &&
          (finalizeRow S classificationBest deliveryPointBest v).is_primary) S =
          List.countP (fun v => decide (v.uprn = u) && v.is_primary) S := by
        apply List.countP_congr
        intro v hv
        by_cases hvu : v.uprn = u
        · rw [finalizeRow_is_primary S classificationBest deliveryPointBest v u hvu]
          rw [← hgrp, ← hpc, if_pos (by omega)]
        · simp [hvu]
      rw [hcongr]
      have hback : List.countP (fun v => decide (v.uprn = u) && v.is_primary) S =
          List.countP (fun v => v.is_primary) grp := by
        rw [hgrp, List.countP_filter]
        apply List.countP_congr
        intro v _
        constructor
        · intro hx
          simp only [Bool.and_eq_true, decide_eq_true_eq] at hx ⊢
          exact ⟨hx.2, hx.1⟩
        · intro hx
          simp only [Bool.and_eq_true, decide_eq_true_eq] at hx ⊢
          exact ⟨hx.2, hx.1⟩
      rw [hback, ← hpc]
      exact hone

/-- Concrete one-approved-row base relation for the C2 witness. -/
def c2WitnessDistinct : List LpiDistinctRow :=
  [{ uprn := 5
     base_address := "1 STATION ROAD TOWN"
     postcode := some "BB2 2BB"
     logical_status := 1
     official_flag := none
     blpu_state := none
     postal_address_code := none
     parent_uprn := none
     hierarchy_level := some "S"
     start_date := none
     end_date := none
     last_update_date := some 20200101 }]

/-- Witness for C2 (amended) on a one-row relation: the single Approved
row is the one primary output row. -/
theorem c2_single_primary_witness :
    ((∃ o ∈ combine_and_dedupe (render_lpi_variants c2WitnessDistinct)
        (fun _ => none) (fun _ => none), o.uprn = 5) ∧
      (dedupeRows ((render_lpi_variants c2WitnessDistinct).map normalizeRow)).countP
        (fun w => w.uprn = 5 ∧ w.is_primary = true) ≤ 1) ∧
    ((∃ o ∈ combine_and_dedupe (render_lpi_variants c2WitnessDistinct)
        (fun _ => none) (fun _ => none), o.uprn = 5 ∧ o.is_primary = true) ∧
      ((dedupeRows ((render_lpi_variants c2WitnessDistinct).map normalizeRow)).countP
          (fun w => w.uprn = 5 ∧ w.is_primary = true) ≤ 1 →
        (combine_and_dedupe (render_lpi_variants c2WitnessDistinct)
          (fun _ => none) (fun _ => none)).countP
          (fun o => o.uprn = 5 ∧ o.is_primary = true) = 1)) :=
  ⟨by decide, c2_single_primary (render_lpi_variants c2WitnessDistinct)
    (fun _ => none) (fun _ => none) 5 (by decide)⟩

/-- Two distinct Approved base addresses for the same property: both LPI
variants carry `is_primary = true`, survive deduplication (their
normalized strings differ) and keep their flags. -/
def c2CexDistinct : List LpiDistinctRow :=
  [{ uprn := 1
     base_address := "1 ALPHA ROAD TOWN"
     postcode := some "CC3 3CC"
     logical_status := 1
     official_flag := none
     blpu_state := none
     postal_address_code := none
     parent_uprn := none
     hierarchy_level := some "S"
     start_date := none
     end_date := none
     last_update_date := some 20200101 },
   { uprn := 1
     base_address := "1 BETA ROAD TOWN"
     postcode := some "CC3 3CC"
     logical_status := 1
     official_flag := none
     blpu_state := none
     postal_address_code := none
     parent_uprn := none
     hierarchy_level := some "S"
     start_date := none
     end_date := none
     last_update_date := some 20190101 }]

/-- Counterexample to C2 as stated: a property with two distinct Approved
base addresses gets TWO output rows with `is_primary = true`, not exactly
one (the Combiner's fallback only promotes a primary when none survives;
it never demotes extras). -/
theorem c2_counterexample :
    0 < (combine_and_dedupe (render_lpi_variants c2CexDistinct)
      (fun _ => none) (fun _ => none)).countP (fun o => o.uprn = 1) ∧
    (combine_and_dedupe (render_lpi_variants c2CexDistinct)
      (fun _ => none) (fun _ => none)).countP
      (fun o => o.uprn = 1 ∧ o.is_primary = true) = 2 := by
  decide

/-- C4 (amended): no two rows of the combined output with the same
property identifier share an identical normalized address string, where
the normalization is the one the code applies: apostrophes removed and
only the FIRST whitespace run collapsed (DuckDB `REGEXP_REPLACE` without
the `g` option). -/
theorem c4_unique_normalized (rows : List VariantRow)
    (classificationBest : Int → Option String)
    (deliveryPointBest : Int → Option Int) :
    (combine_and_dedupe rows classificationBest deliveryPointBest).Pairwise
      (fun a b => a.uprn = b.uprn → a.address_concat ≠ b.address_concat) := by
  have hkeys := dedupeRows_keys_nodup (rows.map normalizeRow)
  have h1 : (dedupeRows (rows.map normalizeRow)).Pairwise
      (fun a b => dedupKey a ≠ dedupKey b) := List.pairwise_map.mp hkeys
  show ((dedupeRows (rows.map normalizeRow)).map
    (finalizeRow (dedupeRows (rows.map normalizeRow))
      classificationBest deliveryPointBest)).Pairwise _
  rw [List.pairwise_map]
  apply h1.imp
  intro a b hab hu haddr
  apply hab
  have hu' : a.uprn = b.uprn := by
    simpa [finalizeRow_uprn] using hu
  have ha' : a.address_concat = b.address_concat := by
    simpa [finalizeRow_addr] using haddr
  simp [dedupKey, Prod.ext_iff, hu', ha']

/-- Two raw addresses that differ only in WHERE the double space sits:
the code's first-run-only normalization keeps them distinct, the spec's
collapse-every-run normalization identifies them. -/
def c4CexDistinct : List LpiDistinctRow :=
  [{ uprn := 1
     base_address := "A B  C"
     postcode := some "DD4 4DD"
     logical_status := 1
     official_flag := none
     blpu_state := none
     postal_address_code := none
     parent_uprn := none
     hierarchy_level := some "S"
     start_date := none
     end_date := none
     last_update_date := some 20200101 },
   { uprn := 1
     base_address := "A  B C"
     postcode := some "DD4 4DD"
     logical_status := 3
     official_flag := none
     blpu_state := none
     postal_address_code := none
     parent_uprn := none
     hierarchy_level := some "S"
     start_date := none
     end_date := none
     last_update_date := some 20190101 }]

/-- Counterexample to C4 as stated: with normalization as the claim
defines it (EVERY whitespace run collapsed), two distinct surviving
output rows of the same property carry an identical normalized address
string — the code collapses only the first whitespace run, so
`A B  C` and `A  B C` survive as different `address_concat` values whose
claim-normalized forms are both `A B C`. -/
theorem c4_counterexample :
    (∃ a ∈ combine_and_dedupe (render_lpi_variants c4CexDistinct)
        (fun _ => none) (fun _ => none),
      ∃ b ∈ combine_and_dedupe (render_lpi_variants c4CexDistinct)
        (fun _ => none) (fun _ => none),
      a ≠ b ∧ a.uprn = b.uprn ∧
        specNormalizeAddress a.address_concat =
          specNormalizeAddress b.address_concat) ∧
    specNormalizeAddress "A B  C" = specNormalizeAddress "A  B C" ∧
    normalizeAddress "A B  C" ≠ normalizeAddress "A  B C" := by
  decide

/-! ## Integrity check and skip logic (C5, C9) -/

/-- The combined output relation the orchestrator builds: the LPI variants
from `lpi_base_distinct` unioned with the other three stages, combined
and deduplicated. -/
def combinedOutput (lpi_base_distinct : List LpiDistinctRow)
    (business_variants delivery_point_variants custom_level_variants : List VariantRow)
    (classificationBest : Int → Option String)
    (deliveryPointBest : Int → Option Int) : List OutRow :=
  combine_and_dedupe
    (render_lpi_variants lpi_base_distinct ++ business_variants ++
      delivery_point_variants ++ custom_level_variants)
    classificationBest deliveryPointBest

/-- C5 (amended): when the inputs exist and the run is not skipped,
`transform_to_flatfile` raises an error iff the distinct-uprn count of
the output differs from the distinct-uprn count of `lpi_base_distinct`
OR the output is empty (0 distinct uprns: the variant-uplift statistic
then divides by zero even though the assertion passed); when the counts
differ, the run aborts with the untouched file state and an assertion
message carrying both counts; on any error the output file is untouched. -/
theorem c5_integrity_check (fs : FsState) (force : Bool)
    (lpi_base_distinct : List LpiDistinctRow)
    (business_variants delivery_point_variants custom_level_variants : List VariantRow)
    (classificationBest : Int → Option String)
    (deliveryPointBest : Int → Option Int)
    (hmiss : requiredParquetNames.filter (fun n => ¬ n ∈ fs.inputFiles) = [])
    (hrun : fs.output = none ∨ force = true) :
    ((∃ e, (transform_to_flatfile fs force lpi_base_distinct business_variants
        delivery_point_variants custom_level_variants classificationBest
        deliveryPointBest).2 = Except.error e) ↔
      (distinctCount (lpi_base_distinct.map (fun r => r.uprn)) ≠
        distinctCount ((combinedOutput lpi_base_distinct business_variants
          delivery_point_variants custom_level_variants classificationBest
          deliveryPointBest).map (fun r => r.uprn)) ∨
       distinctCount ((combinedOutput lpi_base_distinct business_variants
          delivery_point_variants custom_level_variants classificationBest
          deliveryPointBest).map (fun r => r.uprn)) = 0)) ∧
    (distinctCount (lpi_base_distinct.map (fun r => r.uprn)) ≠
        distinctCount ((combinedOutput lpi_base_distinct business_variants
          delivery_point_variants custom_level_variants classificationBest
          deliveryPointBest).map (fun r => r.uprn)) →
      transform_to_flatfile fs force lpi_base_distinct business_variants
        delivery_point_variants custom_level_variants classificationBest
        deliveryPointBest =
        (fs, Except.error ("Lost UPRNs during processing! Input: " ++
          toString (distinctCount (lpi_base_distinct.map (fun r => r.uprn))) ++
          ", Output: " ++ toString (distinctCount ((combinedOutput
            lpi_base_distinct business_variants delivery_point_variants
            custom_level_variants classificationBest
            deliveryPointBest).map (fun r => r.uprn))))) ∧
      (∃ p q, ("Lost UPRNs during processing! Input: " ++
          toString (distinctCount (lpi_base_distinct.map (fun r => r.uprn))) ++
          ", Output: " ++ toString (distinctCount ((combinedOutput
            lpi_base_distinct business_variants delivery_point_variants
            custom_level_variants classificationBest
            deliveryPointBest).map (fun r => r.uprn)))) =
        p ++ toString (distinctCount (lpi_base_distinct.map (fun r => r.uprn))) ++ q) ∧
      (∃ p q, ("Lost UPRNs during processing! Input: " ++
          toString (distinctCount (lpi_base_distinct.map (fun r => r.uprn))) ++
          ", Output: " ++ toString (distinctCount ((combinedOutput
            lpi_base_distinct business_variants delivery_point_variants
            custom_level_variants classificationBest
            deliveryPointBest).map (fun r => r.uprn)))) =
        p ++ toString (distinctCount ((combinedOutput lpi_base_distinct
          business_variants delivery_point_variants custom_level_variants
          classificationBest deliveryPointBest).map (fun r => r.uprn))) ++ q)) ∧
    (∀ e, (transform_to_flatfile fs force lpi_base_distinct business_variants
        delivery_point_variants custom_level_variants classificationBest
        deliveryPointBest).2 = Except.error e →
      (transform_to_flatfile fs force lpi_base_distinct business_variants
        delivery_point_variants custom_level_variants classificationBest
        deliveryPointBest).1 = fs) := by
  set IC := distinctCount (lpi_base_distinct.map (fun r => r.uprn)) with hICdef
  set OUT := combinedOutput lpi_base_distinct business_variants
    delivery_point_variants custom_level_variants classificationBest
    deliveryPointBest with hOUTdef
  set OC := distinctCount (OUT.map (fun r => r.uprn)) with hOCdef
  set MSG := "Lost UPRNs during processing! Input: " ++ toString IC ++
    ", Output: " ++ toString OC with hMSGdef
  have hstep : transform_to_flatfile fs force lpi_base_distinct business_variants
      delivery_point_variants custom_level_variants classificationBest
      deliveryPointBest =
      (if IC ≠ OC then (fs, Except.error MSG)
       else if OC = 0 then (fs, Except.error "division by zero")
       else ({ fs with output := some OUT }, Except.ok outputFileName)) := by
    rw [hMSGdef, hOCdef, hICdef, hOUTdef]
    simp only [transform_to_flatfile, combinedOutput]
    rw [hmiss]
    rw [if_neg (by simp)]
    rcases hrun with h | h
    · rw [if_neg (by simp [h])]
    · rw [if_neg (by simp [h])]
  refine ⟨?_, ?_, ?_⟩
  · constructor
    · rintro ⟨e, he⟩
      by_contra hcon
      push_neg at hcon
      obtain ⟨h1, h2⟩ := hcon
      rw [hstep, if_neg (by simpa using h1), if_neg h2] at he
      simp at he
    · intro hor
      rcases hor with h1 | h2
      · exact ⟨MSG, by rw [hstep, if_pos h1]⟩
      · by_cases h1 : IC ≠ OC
        · exact ⟨MSG, by rw [hstep, if_pos h1]⟩
        · exact ⟨"division by zero", by rw [hstep, if_neg h1, if_pos h2]⟩
  · intro h1
    refine ⟨by rw [hstep, if_pos h1], ?_, ?_⟩
    · refine ⟨"Lost UPRNs during processing! Input: ",
        ", Output: " ++ toString OC, ?_⟩
      rw [hMSGdef]
      simp [String.append_assoc]
    · refine ⟨"Lost UPRNs during processing! Input: " ++ toString IC ++
        ", Output: ", "", ?_⟩
      rw [hMSGdef]
      simp [String.append_assoc]
  · intro e he
    rw [hstep] at he ⊢
    by_cases h1 : IC ≠ OC
    · rw [if_pos h1]
    · rw [if_neg h1] at he ⊢
      by_cases h2 : OC = 0
      · rw [if_pos h2]
      · rw [if_neg h2] at he
        simp at he

/-- File state with all required inputs present and no output yet. -/
def c5CexFs : FsState := { inputFiles := requiredParquetNames, output := none }

/-- Counterexample to C5 as stated: on an empty base-address relation the
two distinct-uprn counts are EQUAL (both 0), the assertion passes, yet
`transform_to_flatfile` still raises an error before writing — the
variant-uplift statistic `((total - n) / n) * 100` divides by the zero
output count (`ZeroDivisionError`). So "raises iff the counts differ" is
false. -/
theorem c5_counterexample :
    distinctCount (([] : List LpiDistinctRow).map (fun r => r.uprn)) =
      distinctCount ((combinedOutput [] [] [] []
        (fun _ => none) (fun _ => none)).map (fun r => r.uprn)) ∧
    (transform_to_flatfile c5CexFs false [] [] [] []
      (fun _ => none) (fun _ => none)).2 = Except.error "division by zero" ∧
    (transform_to_flatfile c5CexFs false [] [] [] []
      (fun _ => none) (fun _ => none)).1 = c5CexFs :=
  ⟨rfl, rfl, rfl⟩

/-- One-row base relation used by the C5 witness. -/
def c5WitnessDistinct : List LpiDistinctRow :=
  [{ uprn := 9
     base_address := "3 MILL LANE TOWN"
     postcode := some "EE5 5EE"
     logical_status := 1
     official_flag := none
     blpu_state := none
     postal_address_code := none
     parent_uprn := none
     hierarchy_level := some "S"
     start_date := none
     end_date := none
     last_update_date := some 20200101 }]

/-- Witness for C5 (amended) at a successful run: inputs present, no
output yet, one property in and one out, so no error is raised. -/
theorem c5_integrity_check_witness :
    (requiredParquetNames.filter (fun n => ¬ n ∈ c5CexFs.inputFiles) = [] ∧
      (c5CexFs.output = none ∨ false = true)) ∧
    (((∃ e, (transform_to_flatfile c5CexFs false c5WitnessDistinct [] [] []
        (fun _ => none) (fun _ => none)).2 = Except.error e) ↔
      (distinctCount (c5WitnessDistinct.map (fun r => r.uprn)) ≠
        distinctCount ((combinedOutput c5WitnessDistinct [] [] []
          (fun _ => none) (fun _ => none)).map (fun r => r.uprn)) ∨
       distinctCount ((combinedOutput c5WitnessDistinct [] [] []
          (fun _ => none) (fun _ => none)).map (fun r => r.uprn)) = 0)) ∧
    (distinctCount (c5WitnessDistinct.map (fun r => r.uprn)) ≠
        distinctCount ((combinedOutput c5WitnessDistinct [] [] []
          (fun _ => none) (fun _ => none)).map (fun r => r.uprn)) →
      transform_to_flatfile c5CexFs false c5WitnessDistinct [] [] []
        (fun _ => none) (fun _ => none) =
        (c5CexFs, Except.error ("Lost UPRNs during processing! Input: " ++
          toString (distinctCount (c5WitnessDistinct.map (fun r => r.uprn))) ++
          ", Output: " ++ toString (distinctCount ((combinedOutput
            c5WitnessDistinct [] [] [] (fun _ => none)
            (fun _ => none)).map (fun r => r.uprn))))) ∧
      (∃ p q, ("Lost UPRNs during processing! Input: " ++
          toString (distinctCount (c5WitnessDistinct.map (fun r => r.uprn))) ++
          ", Output: " ++ toString (distinctCount ((combinedOutput
            c5WitnessDistinct [] [] [] (fun _ => none)
            (fun _ => none)).map (fun r => r.uprn)))) =
        p ++ toString (distinctCount (c5WitnessDistinct.map (fun r => r.uprn))) ++ q) ∧
      (∃ p q, ("Lost UPRNs during processing! Input: " ++
          toString (distinctCount (c5WitnessDistinct.map (fun r => r.uprn))) ++
          ", Output: " ++ toString (distinctCount ((combinedOutput
            c5WitnessDistinct [] [] [] (fun _ => none)
            (fun _ => none)).map (fun r => r.uprn)))) =
        p ++ toString (distinctCount ((combinedOutput c5WitnessDistinct [] [] []
          (fun _ => none) (fun _ => none)).map (fun r => r.uprn))) ++ q)) ∧
    (∀ e, (transform_to_flatfile c5CexFs false c5WitnessDistinct [] [] []
        (fun _ => none) (fun _ => none)).2 = Except.error e →
      (transform_to_flatfile c5CexFs false c5WitnessDistinct [] [] []
        (fun _ => none) (fun _ => none)).1 = c5CexFs)) :=
  ⟨⟨by decide, Or.inl rfl⟩,
    c5_integrity_check c5CexFs false c5WitnessDistinct [] [] []
      (fun _ => none) (fun _ => none) (by decide) (Or.inl rfl)⟩

/-- C9 (amended): when the required input files exist, the durable output
already exists and the force flag is false, `transform_to_flatfile`
returns the existing output location and leaves the whole file state —
in particular the output file — untouched; nothing is recomputed.
(Amendment: the source checks `_assert_inputs_exist` BEFORE the
skip-if-output-exists test, so a run with missing inputs raises
`FileNotFoundError` even when output exists — see the counterexample.) -/
theorem c9_skip_without_force (fs : FsState)
    (lpi_base_distinct : List LpiDistinctRow)
    (business_variants delivery_point_variants custom_level_variants : List VariantRow)
    (classificationBest : Int → Option String)
    (deliveryPointBest : Int → Option Int)
    (hmiss : requiredParquetNames.filter (fun n => ¬ n ∈ fs.inputFiles) = [])
    (hout : fs.output.isSome = true) :
    transform_to_flatfile fs false lpi_base_distinct business_variants
      delivery_point_variants custom_level_variants classificationBest
      deliveryPointBest = (fs, Except.ok outputFileName) := by
  simp only [transform_to_flatfile]
  rw [hmiss]
  rw [if_neg (by simp)]
  rw [if_pos (by simp [hout])]

/-- File state with inputs present and an existing (empty) output. -/
def c9WitnessFs : FsState := { inputFiles := requiredParquetNames, output := some [] }

/-- Witness for C9 (amended): with inputs present and existing output,
the unforced run returns the output location with the state untouched. -/
theorem c9_skip_without_force_witness :
    (requiredParquetNames.filter (fun n => ¬ n ∈ c9WitnessFs.inputFiles) = [] ∧
      c9WitnessFs.output.isSome = true) ∧
    transform_to_flatfile c9WitnessFs false [] [] [] []
      (fun _ => none) (fun _ => none) = (c9WitnessFs, Except.ok outputFileName) :=
  ⟨by decide, c9_skip_without_force c9WitnessFs [] [] [] []
    (fun _ => none) (fun _ => none) (by decide) (by decide)⟩

/-- File state with an existing output but missing input files. -/
def c9CexFs : FsState := { inputFiles := [], output := some [] }

/-- Counterexample to C9 as stated: the output file exists and no force
flag is given, yet `transform_to_flatfile` does NOT return the existing
output location — the input check runs first and raises
`FileNotFoundError`. -/
theorem c9_counterexample :
    c9CexFs.output.isSome = true ∧
    (transform_to_flatfile c9CexFs false [] [] [] []
      (fun _ => none) (fun _ => none)).2 =
      Except.error ("Missing required parquet files: " ++
        toString requiredParquetNames ++ ". Run --step split first.") ∧
    ∀ p, (transform_to_flatfile c9CexFs false [] [] [] []
      (fun _ => none) (fun _ => none)).2 ≠ Except.ok p := by
  refine ⟨rfl, rfl, ?_⟩
  intro p h
  have h2 : (Except.error ("Missing required parquet files: " ++
      toString requiredParquetNames ++ ". Run --step split first.") :
        Except String String) = Except.ok p := h
  exact Except.noConfusion h2

/-! ## Chunk partitioning claims (C8, C10) -/

/-- C8: `chunk_where` raises `ValueError` iff `num_chunks < 1` or
`chunk_id` violates `0 ≤ chunk_id < num_chunks`; when the bounds hold it
returns, without failing, the WHERE fragment whose denotation assigns a
non-null row to the chunk `hash(value) % num_chunks` and keeps no null
row. -/
theorem c8_chunk_where (col : String) (num_chunks chunk_id : Int) :
    ((∃ e, chunk_where col num_chunks chunk_id = Except.error e) ↔
      (num_chunks < 1 ∨ chunk_id < 0 ∨ num_chunks ≤ chunk_id)) ∧
    (1 ≤ num_chunks → 0 ≤ chunk_id → chunk_id < num_chunks →
      chunk_where col num_chunks chunk_id = Except.ok
        (col ++ " IS NOT NULL AND (hash(" ++ col ++ ") % " ++
          toString num_chunks ++ ") = " ++ toString chunk_id) ∧
      (∀ (α : Type) (h : α → Nat) (x : α),
        chunk_pred h num_chunks chunk_id (some x) = true ↔
          (h x : Int) % num_chunks = chunk_id) ∧
      (∀ (α : Type) (h : α → Nat),
        chunk_pred h num_chunks chunk_id (none : Option α) = false)) := by
  refine ⟨?_, ?_⟩
  · constructor
    · rintro ⟨e, he⟩
      by_contra hcon
      push_neg at hcon
      obtain ⟨h1, h2, h3⟩ := hcon
      rw [chunk_where, if_neg (by omega), if_neg (by push_neg; omega)] at he
      simp at he
    · intro hor
      by_cases h1 : num_chunks < 1
      · exact ⟨_, by rw [chunk_where, if_pos h1]⟩
      · have h2 : ¬ (0 ≤ chunk_id ∧ chunk_id < num_chunks) := by omega
        exact ⟨_, by rw [chunk_where, if_neg h1, if_pos h2]⟩
  · intro h1 h2 h3
    refine ⟨?_, ?_, ?_⟩
    · rw [chunk_where, if_neg (by omega), if_neg (by push_neg; omega)]
    · intro α h x
      simp [chunk_pred]
    · intro α h
      rfl

/-- Witness for C8: with 4 chunks, chunk id 3 is accepted, the fragment
is emitted, and (for the absolute-value hash) the value 7 falls in chunk
`7 % 4 = 3` while a NULL value falls in no chunk. -/
theorem c8_chunk_where_witness :
    ((1 : Int) ≤ 4 ∧ (0 : Int) ≤ 3 ∧ (3 : Int) < 4 ∧
      chunk_pred (fun z : Int => z.natAbs) 4 3 (some 7) = true ∧
      chunk_pred (fun z : Int => z.natAbs) 4 3 (some 8) = false ∧
      chunk_pred (fun z : Int => z.natAbs) 4 3 none = false) ∧
    chunk_where "uprn" 4 3 =
      Except.ok "uprn IS NOT NULL AND (hash(uprn) % 4) = 3" :=
  ⟨by decide, ((c8_chunk_where "uprn" 4 3).2 (by decide) (by decide) (by decide)).1⟩

/-- C10: for any number of chunks `N ≥ 1` and any (deterministic) hash, a
null-keyed row satisfies none of the `N` chunk predicates, the predicates
for distinct chunk ids are pairwise disjoint, and a non-null row
satisfies exactly one of them — the one whose id is its hash modulo `N`.
Hence concatenating the `N` chunks covers exactly the rows with a
non-null partition column, each exactly once. -/
theorem c10_chunk_coverage {α : Type} (h : α → Nat) (num_chunks : Int)
    (hN : 1 ≤ num_chunks) :
    (∀ chunk_id, chunk_pred h num_chunks chunk_id (none : Option α) = false) ∧
    (∀ (x : α) (i j : Int), i ≠ j →
      ¬(chunk_pred h num_chunks i (some x) = true ∧
        chunk_pred h num_chunks j (some x) = true)) ∧
    (∀ x : α, ∃! i, 0 ≤ i ∧ i < num_chunks ∧
      chunk_pred h num_chunks i (some x) = true) := by
  refine ⟨?_, ?_, ?_⟩
  · intro chunk_id
    rfl
  · rintro x i j hij ⟨hi, hj⟩
    simp only [chunk_pred, decide_eq_true_eq] at hi hj
    exact hij (hi ▸ hj ▸ rfl)
  · intro x
    refine ⟨(h x : Int) % num_chunks, ⟨?_, ?_, ?_⟩, ?_⟩
    · exact Int.emod_nonneg _ (by omega)
    · exact Int.emod_lt_of_pos _ (by omega)
    · simp [chunk_pred]
    · rintro y ⟨_, _, hy⟩
      simp only [chunk_pred, decide_eq_true_eq] at hy
      exact hy.symm

/-- Witness for C10 with 4 chunks and the absolute-value hash on `Int`
rows. -/
theorem c10_chunk_coverage_witness :
    ((1 : Int) ≤ 4) ∧
    ((∀ chunk_id, chunk_pred (fun z : Int => z.natAbs) 4 chunk_id
        (none : Option Int) = false) ∧
      (∀ (x : Int) (i j : Int), i ≠ j →
        ¬(chunk_pred (fun z : Int => z.natAbs) 4 i (some x) = true ∧
          chunk_pred (fun z : Int => z.natAbs) 4 j (some x) = true)) ∧
      (∀ x : Int, ∃! i, 0 ≤ i ∧ i < 4 ∧
        chunk_pred (fun z : Int => z.natAbs) 4 i (some x) = true)) :=
  ⟨by decide, c10_chunk_coverage (fun z : Int => z.natAbs) 4 (by decide)⟩

/-- Occupant record (ended occupancy 2010-01-01..2011-12-31) for the C3
witness. -/
def c3WitnessOcc : OccCandidate :=
  { uprn := 1
    name_source := "ORGANISATION"
    name_value := "ACME LTD"
    start_date := some 20100101
    end_date := some 20111231 }

/-- Base-address snapshot valid from 2012-07-01 with the most recent
last-update date: temporally disjoint from the occupant. -/
def c3RowRecent : LpiDistinctRow :=
  { uprn := 1
    base_address := "10 NEW ROAD TOWN"
    postcode := some "FF6 6FF"
    logical_status := 1
    official_flag := none
    blpu_state := none
    postal_address_code := none
    parent_uprn := none
    hierarchy_level := some "S"
    start_date := some 20120701
    end_date := none
    last_update_date := some 20200101 }

/-- Base-address snapshot valid until 2012-06-30 with an old last-update
date: temporally overlapping the occupant. -/
def c3RowOverlap : LpiDistinctRow :=
  { uprn := 1
    base_address := "10 OLD ROAD TOWN"
    postcode := some "FF6 6FF"
    logical_status := 1
    official_flag := none
    blpu_state := none
    postal_address_code := none
    parent_uprn := none
    hierarchy_level := some "S"
    start_date := none
    end_date := some 20120630
    last_update_date := some 20050101 }

/-- Witness for C3: the temporally overlapping snapshot is selected in
preference to the non-overlapping but much more recently updated one. -/
theorem c3_business_temporal_match_witness :
    (c3WitnessOcc.end_date = some 20111231 ∧
      [c3RowRecent, c3RowOverlap].filter
        (fun c => c.uprn = c3WitnessOcc.uprn) ≠ [] ∧
      overlapCaseTrue c3WitnessOcc c3RowOverlap = true ∧
      overlapCaseTrue c3WitnessOcc c3RowRecent = false ∧
      c3RowOverlap.last_update_date.getD 10101 <
        c3RowRecent.last_update_date.getD 10101 ∧
      select_historical_base c3WitnessOcc [c3RowRecent, c3RowOverlap] =
        some c3RowOverlap) ∧
    (∃ c, select_historical_base c3WitnessOcc [c3RowRecent, c3RowOverlap] =
        some c ∧
      c ∈ [c3RowRecent, c3RowOverlap].filter
        (fun c => c.uprn = c3WitnessOcc.uprn) ∧
      (∀ c' ∈ [c3RowRecent, c3RowOverlap].filter
          (fun c => c.uprn = c3WitnessOcc.uprn),
        histLt c3WitnessOcc c' c = false) ∧
      ((∃ c' ∈ [c3RowRecent, c3RowOverlap].filter
          (fun c => c.uprn = c3WitnessOcc.uprn),
        overlapCaseTrue c3WitnessOcc c' = true) →
        overlapCaseTrue c3WitnessOcc c = true) ∧
      (∀ v ∈ render_business_historical_variants [c3WitnessOcc]
          [c3RowRecent, c3RowOverlap],
        v.raw_address = sqlTrim (concatWs " "
          [some c3WitnessOcc.name_value, some c.base_address]))) :=
  ⟨by decide, c3_business_temporal_match c3WitnessOcc
    [c3RowRecent, c3RowOverlap] 20111231 (by decide) (by decide)⟩
